import Mathlib

/-
Verification of the MeloMuse transition model and Spotify data collector.
The Python sources (src/models/transition_model.py, src/data/spotify_collector.py)
are shallowly embedded: pure computations become Lean functions over ℚ,
external API calls become explicit oracles, and exceptions become Except.
-/

namespace MeloMuse

/-- A dataset row: one track record together with its mood label and the
cluster index assigned by k-means during `train` (the `cluster` column added
to the dataframe).  Numeric features are rationals; only the columns read by
the transition model are kept. -/
structure Row where
  mood : String
  cluster : Nat
  popularity : ℚ
  duration_ms : ℚ
  artist_popularity : ℚ
  artist_followers : ℚ
  explicit : Bool
  album_type : String
deriving DecidableEq

/-- The four numeric feature pairs inspected by `_calculate_feature_similarity`
(`features`: popularity, duration_ms, artist_popularity, artist_followers). -/
def numeric_features (song1 song2 : Row) : List (ℚ × ℚ) :=
  [(song1.popularity, song2.popularity),
   (song1.duration_ms, song2.duration_ms),
   (song1.artist_popularity, song2.artist_popularity),
   (song1.artist_followers, song2.artist_followers)]

/-- One iteration of the `_calculate_feature_similarity` loop: when
`max(v1, v2) > 0` the term `1 - |v1 - v2| / max(v1, v2)` is produced,
otherwise the feature is skipped. -/
def feature_sim_term (v1 v2 : ℚ) : Option ℚ :=
  if 0 < max v1 v2 then some (1 - |v1 - v2| / max v1 v2) else none

/-- The loop of `_calculate_feature_similarity` over the four numeric
features. -/
def numeric_similarities (song1 song2 : Row) : List ℚ :=
  (numeric_features song1 song2).filterMap (fun p => feature_sim_term p.1 p.2)

/-- The full `similarities` list built by `_calculate_feature_similarity`:
numeric terms followed by the two binary terms for the `explicit` flag and
the album type. -/
def similarities (song1 song2 : Row) : List ℚ :=
  numeric_similarities song1 song2 ++
  [if song1.explicit = song2.explicit then (1 : ℚ) else 0,
   if song1.album_type = song2.album_type then (1 : ℚ) else 0]

/-- `np.mean` of a list of rationals (sum divided by length). -/
def listMean (l : List ℚ) : ℚ := l.sum / l.length

/-- `_calculate_feature_similarity(song1, song2)`: the mean of the collected
similarity terms. -/
def calculate_feature_similarity (song1 song2 : Row) : ℚ :=
  listMean (similarities song1 song2)

/-- The hand-authored `mood_weights` table of `_calculate_transition_weight`. -/
def mood_weights (p : String × String) : Option ℚ :=
  if p = ("sad", "happy") then some (8/10)
  else if p = ("happy", "sad") then some (6/10)
  else if p = ("calm", "energetic") then some (7/10)
  else if p = ("energetic", "calm") then some (7/10)
  else if p = ("angry", "calm") then some (8/10)
  else if p = ("calm", "angry") then some (5/10)
  else if p = ("romantic", "happy") then some (7/10)
  else if p = ("happy", "romantic") then some (7/10)
  else if p = ("melancholic", "happy") then some (6/10)
  else if p = ("happy", "melancholic") then some (5/10)
  else none

/-- `_calculate_transition_weight(song1, song2)`: the mood-pair base weight
(defaulting to 0.3 for unlisted pairs) times the feature similarity. -/
def calculate_transition_weight (song1 song2 : Row) : ℚ :=
  ((mood_weights (song1.mood, song2.mood)).getD (3/10)) *
    calculate_feature_similarity song1 song2

/-- A node of the transition graph: identifier `"{mood}_{cluster}"`, the mood,
the cluster index and the rows of the (mood, cluster) group. -/
structure GNode where
  id : String
  mood : String
  cluster : Nat
  songs : List Row
deriving DecidableEq

/-- The directed transition graph: the node list and weighted edges
`(source id, target id, weight)`. -/
structure Graph where
  nodes : List GNode
  edges : List (String × String × ℚ)
deriving DecidableEq

/-- The groupby key of a row: its (mood, cluster) pair. -/
def rowKey (r : Row) : String × Nat := (r.mood, r.cluster)

/-- The distinct (mood, cluster) keys of the dataset, in order of first
appearance (pandas `groupby` produces exactly these groups). -/
def groupKeys (dataset : List Row) : List (String × Nat) :=
  (dataset.map rowKey).dedup

/-- The node built for one (mood, cluster) group: id `"{mood}_{cluster}"`,
songs are the rows of the group in dataframe order. -/
def mkNode (dataset : List Row) (k : String × Nat) : GNode :=
  { id := k.1 ++ "_" ++ Nat.repr k.2
    mood := k.1
    cluster := k.2
    songs := dataset.filter (fun r => rowKey r = k) }

/-- `_build_transition_graph(dataset)`: one node per non-empty (mood, cluster)
group, then for every ordered node pair the transition weight of the two
representative songs (`songs[0]` of each node) is computed and an edge is
added only when the weight is strictly positive. -/
def build_transition_graph (dataset : List Row) : Graph :=
  let nodes := (groupKeys dataset).map (mkNode dataset)
  let edges := nodes.flatMap (fun n1 => nodes.filterMap (fun n2 =>
    match n1.songs, n2.songs with
    | s1 :: _, s2 :: _ =>
      let weight := calculate_transition_weight s1 s2
      if 0 < weight then some (n1.id, n2.id, weight) else none
    | _, _ => none))
  { nodes := nodes, edges := edges }

/-- The node identifiers of the graph. -/
def nodeIds (g : Graph) : List String := g.nodes.map GNode.id

/-- `self.graph.nodes[i]` lookup: the first node carrying identifier `i`. -/
def findNode (g : Graph) (i : String) : Option GNode :=
  g.nodes.find? (fun n => n.id = i)

/-- Whether the graph has a directed edge from `u` to `v`. -/
def hasEdge (g : Graph) (u v : String) : Bool :=
  g.edges.any (fun e => e.1 = u && e.2.1 = v)

/-- The successors of `u`: targets of the edges leaving `u`. -/
def succs (g : Graph) (u : String) : List String :=
  g.edges.filterMap (fun e => if e.1 = u then some e.2.1 else none)

/-- The weight of the edge from `u` to `v` (0 when absent; only queried on
existing edges). -/
def edgeWeight (g : Graph) (u v : String) : ℚ :=
  ((g.edges.find? (fun e => e.1 = u && e.2.1 = v)).map (fun e => e.2.2)).getD 0

/-- Python `str.startswith` on character lists: `charsLead p s` holds when
`p` is an initial segment of `s`. -/
def charsLead : List Char → List Char → Bool
  | [], _ => true
  | _ :: _, [] => false
  | a :: as, b :: bs => a = b && charsLead as bs

/-- Python `n.startswith(p)`. -/
def startswith (n p : String) : Bool := charsLead p.data n.data

/-- Python `needle in hay` on character lists. -/
def charsContain (needle : List Char) : List Char → Bool
  | [] => needle.isEmpty
  | c :: rest => charsLead needle (c :: rest) || charsContain needle rest

/-- Python `needle in hay` for strings. -/
def strContains (hay needle : String) : Bool := charsContain needle.data hay.data

/-- Consecutive elements of the list are all edges of the graph. -/
def chainB (g : Graph) : List String → Bool
  | [] => true
  | [_] => true
  | a :: b :: rest => hasEdge g a b && chainB g (b :: rest)

/-- `l` is a directed path from `u` to `v` in `g`: it starts at `u`, ends at
`v`, and each consecutive pair is an edge. -/
def isPath (g : Graph) (u v : String) (l : List String) : Bool :=
  decide (l.head? = some u) && decide (l.getLast? = some v) && chainB g l

/-- All simple paths from `u` to `v` avoiding `avoid`, with recursion depth
bounded by `fuel`.  Used to model `networkx.shortest_path`: a minimum-weight
path exists exactly when some simple path joins the two nodes. -/
def pathsFrom (g : Graph) : Nat → List String → String → String → List (List String)
  | 0, _, u, v => if u = v then [[u]] else []
  | fuel + 1, avoid, u, v =>
    if u = v then [[u]]
    else ((succs g u).filter (fun w => decide (w ∉ avoid))).flatMap
      (fun w => (pathsFrom g fuel (u :: avoid) w v).map (fun p => u :: p))

/-- Total weight of a path: the sum of the weights of its consecutive edges. -/
def pathWeight (g : Graph) : List String → ℚ
  | [] => 0
  | [_] => 0
  | a :: b :: rest => edgeWeight g a b + pathWeight g (b :: rest)

/-- Select a path of minimal total weight from the candidate list. -/
def minByWeight (g : Graph) : List (List String) → Option (List String)
  | [] => none
  | p :: ps =>
    some (ps.foldl (fun best q => if pathWeight g q < pathWeight g best then q else best) p)

/-- Model of `nx.shortest_path` with the weight attribute as cost: a
minimum-weight path from `s` to `t` when the nodes are connected, `none`
when `NetworkXNoPath` would be raised. -/
def shortest_path (g : Graph) (s t : String) : Option (List String) :=
  minByWeight g (pathsFrom g g.nodes.length [] s t)

/-- `_calculate_path_duration(path)`: the sum over path nodes of the average
track duration of the songs of the node (nodes with no songs contribute nothing). -/
def calculate_path_duration (g : Graph) (path : List String) : ℚ :=
  (path.map (fun i =>
    match findNode g i with
    | some n => if n.songs.isEmpty then 0 else listMean (n.songs.map Row.duration_ms)
    | none => 0)).sum

/-- The ordered (start node, end node) pairs tried by `generate_playlist`:
`for start in start_nodes: for end in end_nodes`. -/
def node_pairs (startNodes endNodes : List String) : List (String × String) :=
  startNodes.flatMap (fun s => endNodes.map (fun e => (s, e)))

/-- One iteration of the best-path loop of `generate_playlist`: compute the
shortest path for the pair (`nx.NetworkXNoPath` is caught and skipped) and
keep the path whose duration is strictly closest to the target; a `none`
accumulator models `best_path = None` with `best_duration = inf`, beaten by
any found path. -/
def pick_best_step (g : Graph) (target : ℚ) (best : Option (List String × ℚ))
    (pr : String × String) : Option (List String × ℚ) :=
  match shortest_path g pr.1 pr.2 with
  | none => best
  | some path =>
    let pd := calculate_path_duration g path
    match best with
    | none => some (path, pd)
    | some b => if |pd - target| < |b.2 - target| then some (path, pd) else best

/-- The best-path loop of `generate_playlist` over all (start, end) pairs. -/
def pick_best_path (g : Graph) (target : ℚ) (pairs : List (String × String)) :
    Option (List String × ℚ) :=
  pairs.foldl (pick_best_step g target) none

/-- The emission loop of `generate_playlist`: walk the chosen path, pick one
song per non-empty node (`np.random.choice` modelled by the index oracle
`rng`, reduced modulo the song count), accumulate duration and stop as soon
as it reaches the target.  Node identifiers absent from the graph cannot
occur on a generated path. -/
def walk_path (g : Graph) (rng : Nat → Nat) (target : ℚ) :
    List String → Nat → ℚ → List Row → List Row
  | [], _, _, playlist => playlist
  | i :: rest, k, current, playlist =>
    match findNode g i with
    | none => walk_path g rng target rest (k + 1) current playlist
    | some n =>
      if h : n.songs = [] then walk_path g rng target rest (k + 1) current playlist
      else
        let song := n.songs.get ⟨rng k % n.songs.length, Nat.mod_lt _ (List.length_pos.mpr h)⟩
        let current' := current + song.duration_ms
        if target ≤ current' then playlist ++ [song]
        else walk_path g rng target rest (k + 1) current' (playlist ++ [song])

/-- The two `ValueError`s of `generate_playlist`. -/
inductive GenError where
  | noSuchMood : String → String → GenError
  | noPath : String → String → GenError
deriving DecidableEq

/-- `generate_playlist(start_emotion, end_emotion, duration_minutes)`.  The
second component of the result is the graph of the model after the call (the
method only reads it).  Mood matching is by node-identifier prefix
(`n.startswith(...)`). -/
def generate_playlist (g : Graph) (rng : Nat → Nat)
    (start_emotion end_emotion : String) (duration_minutes : ℚ) :
    Except GenError (List Row) × Graph :=
  let target_duration := duration_minutes * 60 * 1000
  let start_nodes := (nodeIds g).filter (fun n => startswith n start_emotion)
  let end_nodes := (nodeIds g).filter (fun n => startswith n end_emotion)
  if start_nodes.isEmpty || end_nodes.isEmpty then
    (Except.error (GenError.noSuchMood start_emotion end_emotion), g)
  else
    match pick_best_path g target_duration (node_pairs start_nodes end_nodes) with
    | none => (Except.error (GenError.noPath start_emotion end_emotion), g)
    | some best => (Except.ok (walk_path g rng target_duration best.1 0 0 []), g)

/-- `max_retries` of `_handle_rate_limit`. -/
def max_retries : Nat := 3

/-- `base_delay` of `_handle_rate_limit`, in seconds. -/
def base_delay : ℚ := 2

/-- The rate-limit classification of `_handle_rate_limit`:
the message contains 429 or contains 403. -/
def is_rate_limit (e : String) : Bool :=
  strContains e ("429") || strContains e ("403")

/-- The `for attempt in range(max_retries)` loop of `_handle_rate_limit`.
`f` is the outcome of calling the wrapped function on each attempt.  The
second component is the sequence of `time.sleep` durations, in order: the
fixed 1-second pre-call sleep, then on a retried rate-limit failure the
backoff `base_delay * 2 ** attempt`.  The `[]` case is unreachable: the
guard retries only while later attempts remain. -/
def handle_rate_limit_go (f : Nat → Except String α) : List Nat → Except String α × List ℚ
  | [] => (Except.error (""), [])
  | attempt :: rest =>
    match f attempt with
    | Except.ok a => (Except.ok a, [1])
    | Except.error e =>
      if is_rate_limit e && decide (attempt < max_retries - 1) then
        let r := handle_rate_limit_go f rest
        (r.1, 1 :: base_delay * 2 ^ attempt :: r.2)
      else (Except.error e, [1])

/-- `_handle_rate_limit(func, ...)`: run the attempt loop over
`range(max_retries)`. -/
def handle_rate_limit (f : Nat → Except String α) : Except String α × List ℚ :=
  handle_rate_limit_go f (List.range max_retries)

/-- One page of Spotify API paging results: its `items` (when the key is
present and truthy) and whether a `next` page URL is present. -/
structure Page (α : Type) where
  items : Option (List α)
  next : Bool

/-- The paging loop (`while` next page exists `and len(tracks) < 50`) of
`get_playlist_tracks`.  `nextPage i` is the page returned by the i-th
`sp.next` call; `fuel` bounds the iterations (`none` models a run in which
the loop has not terminated within `fuel` steps). -/
def get_playlist_tracks_go (nextPage : Nat → Page α) :
    Nat → Nat → Page α → List α → Option (List α)
  | 0, _, _, _ => none
  | fuel + 1, i, results, tracks =>
    if results.next && decide (tracks.length < 50) then
      let p := nextPage i
      let tracks' := match p.items with
        | some its => tracks ++ its
        | none => tracks
      get_playlist_tracks_go nextPage fuel (i + 1) p tracks'
    else some (tracks.take 50)

/-- `get_playlist_tracks(playlist_id)`: `first` is the outcome of the initial
`sp.playlist_tracks` call (errors are caught and yield `[]`, as does a falsy
or item-less response), then the paging loop runs and the final list is
truncated to 50 items. -/
def get_playlist_tracks (first : Except String (Page α)) (nextPage : Nat → Page α)
    (fuel : Nat) : Option (List α) :=
  match first with
  | Except.error _ => some []
  | Except.ok p =>
    match p.items with
    | none => some []
    | some tracks => get_playlist_tracks_go nextPage fuel 0 p tracks

/-- A playlist search result; only the identifier matters to the claims. -/
structure Playlist where
  id : String
deriving DecidableEq

/-- The four query variants issued by `search_playlists_by_mood`. -/
def mood_queries (mood : String) : List String :=
  ["mood " ++ mood, mood ++ " music", mood ++ " songs", mood ++ " playlist"]

/-- The inner `for playlist in playlists` loop: append each playlist whose
identifier has not been seen, recording seen identifiers. -/
def add_playlists (acc : List Playlist × List String) (items : List Playlist) :
    List Playlist × List String :=
  items.foldl (fun a p =>
    if p.id ∈ a.2 then a else (a.1 ++ [p], a.2 ++ [p.id])) acc

/-- One iteration of the query loop of `search_playlists_by_mood`: `resp q`
is the outcome of the search call for query `q` (`Except.error` models a
raised exception, caught and skipped; `Except.ok none` models a response
without a usable `playlists.items` structure, also skipped). -/
def process_query (resp : String → Except String (Option (List Playlist)))
    (acc : List Playlist × List String) (q : String) : List Playlist × List String :=
  match resp q with
  | Except.error _ => acc
  | Except.ok none => acc
  | Except.ok (some items) => add_playlists acc items

/-- `search_playlists_by_mood(mood, limit)`: run the four queries,
deduplicate by playlist identifier, and truncate to `limit`. -/
def search_playlists_by_mood (resp : String → Except String (Option (List Playlist)))
    (mood : String) (limit : Nat) : List Playlist :=
  (((mood_queries mood).foldl (process_query resp) ([], [])).1).take limit

/-- An artist object as returned by the API; the fields read with `.get`
defaults are optional. -/
structure SpotifyArtist where
  name : String
  popularity : Option ℚ
  genres : Option (List String)
  followers_total : Option ℚ
deriving DecidableEq

/-- A track object as returned by the API. -/
structure SpotifyTrack where
  id : String
  name : String
  artists : List SpotifyArtist
  popularity : ℚ
  duration_ms : ℚ
  album_name : String
  release_date : String
  explicit : Bool
  track_number : Nat
  disc_number : Nat
  available_markets : List String
  is_local : Bool
  album_type : String
  album_total_tracks : Nat
deriving DecidableEq

/-- The structured record assembled by `get_track_info`. -/
structure TrackInfo where
  id : String
  name : String
  artist : String
  popularity : ℚ
  duration_ms : ℚ
  album : String
  release_date : String
  explicit : Bool
  track_number : Nat
  disc_number : Nat
  available_markets : Nat
  is_local : Bool
  album_type : String
  album_release_date : String
  album_total_tracks : Nat
  artist_popularity : ℚ
  artist_genres : List String
  artist_followers : ℚ
deriving DecidableEq

/-- The record literal of `get_track_info`, built from the track and its
first artist (`.get` defaults applied to the optional artist fields). -/
def mk_track_info (t : SpotifyTrack) (a : SpotifyArtist) : TrackInfo :=
  { id := t.id
    name := t.name
    artist := a.name
    popularity := t.popularity
    duration_ms := t.duration_ms
    album := t.album_name
    release_date := t.release_date
    explicit := t.explicit
    track_number := t.track_number
    disc_number := t.disc_number
    available_markets := t.available_markets.length
    is_local := t.is_local
    album_type := t.album_type
    album_release_date := t.release_date
    album_total_tracks := t.album_total_tracks
    artist_popularity := a.popularity.getD 0
    artist_genres := a.genres.getD []
    artist_followers := a.followers_total.getD 0 }

/-- `get_track_info(track_id)`: `call` is the outcome of the rate-limited
`sp.track` call.  A raised error is caught by the blanket `except` and
yields `None`; a falsy track yields `None`; an empty artist list raises
`IndexError` inside the `try`, also caught, yielding `None`.  The result is
wrapped in `Except` to record that the function itself never raises. -/
def get_track_info (call : Except String (Option SpotifyTrack)) :
    Except String (Option TrackInfo) :=
  match call with
  | Except.error _ => Except.ok none
  | Except.ok none => Except.ok none
  | Except.ok (some t) =>
    match t.artists with
    | [] => Except.ok none
    | a :: _ => Except.ok (some (mk_track_info t a))

/-- Concrete sad row used to exercise the model. -/
def wrow1 : Row :=
  { mood := "sad"
    cluster := 0
    popularity := 50
    duration_ms := 1
    artist_popularity := 50
    artist_followers := 100
    explicit := false
    album_type := "album" }

/-- Concrete happy row, identical features. -/
def wrow2 : Row := { wrow1 with mood := "happy" }

/-- Concrete two-row dataset. -/
def wrows : List Row := [wrow1, wrow2]

/-- The graph trained on `wrows`. -/
def wgraph : Graph := build_transition_graph wrows

/-- The node the trained graph builds for the sad row. -/
def wnode1 : GNode := { id := "sad_0", mood := "sad", cluster := 0, songs := [wrow1] }

/-- The node the trained graph builds for the happy row. -/
def wnode2 : GNode := { id := "happy_0", mood := "happy", cluster := 0, songs := [wrow2] }

/-- A two-node graph with no edges, hence no path between its nodes. -/
def wgraphNP : Graph := { nodes := [wnode1, wnode2], edges := [] }

/-- A call that always fails with a 429 error. -/
def call429 : Nat → Except String Nat := fun _ => Except.error ("429 rate limited")

/-- A call failing with 429 on the first two attempts and succeeding on the
third. -/
def call429twice : Nat → Except String Nat :=
  fun k => if k < 2 then Except.error ("429 rate limited") else Except.ok 7

/-- A first page with three items and a next link. -/
def wpage : Page Nat := { items := some [1, 2, 3], next := true }

/-- A page stream: the fetched page carries two items and no next link. -/
def wpages : Nat → Page Nat := fun _ => { items := some [4, 5], next := false }

/-- A search oracle for which every query raises. -/
def wrespFail : String → Except String (Option (List Playlist)) := fun _ =>
  Except.error ("HTTP 500")

/-- A concrete artist object. -/
def wartist : SpotifyArtist :=
  { name := "artist"
    popularity := some 10
    genres := some []
    followers_total := none }

/-- A concrete track object. -/
def wtrack : SpotifyTrack :=
  { id := "t1"
    name := "track"
    artists := [wartist]
    popularity := 10
    duration_ms := 1000
    album_name := "al"
    release_date := "2020-01-01"
    explicit := false
    track_number := 1
    disc_number := 1
    available_markets := []
    is_local := false
    album_type := "album"
    album_total_tracks := 10 }

end MeloMuse

namespace MeloMuse

lemma listMean_nonneg {l : List ℚ} (h : ∀ x ∈ l, 0 ≤ x) : 0 ≤ listMean l := by
  unfold listMean
  exact div_nonneg (List.sum_nonneg h) (by positivity)

lemma listMean_le_one {l : List ℚ} (h : ∀ x ∈ l, x ≤ 1) : listMean l ≤ 1 := by
  unfold listMean
  rcases eq_or_ne l [] with rfl | hne
  · simp
  · have hlen : 0 < (l.length : ℚ) := by
      exact_mod_cast List.length_pos.mpr hne
    rw [div_le_one hlen]
    calc l.sum ≤ l.length • (1 : ℚ) := List.sum_le_card_nsmul l 1 h
    _ = (l.length : ℚ) := by simp

lemma mem_similarities_le_one {s1 s2 : Row} {x : ℚ} (hx : x ∈ similarities s1 s2) :
    x ≤ 1 := by
  unfold similarities at hx
  rcases List.mem_append.mp hx with h | h
  · unfold numeric_similarities at h
    rcases List.mem_filterMap.mp h with ⟨p, _, hp⟩
    unfold feature_sim_term at hp
    split_ifs at hp with hpos
    · cases hp
      have : 0 ≤ |p.1 - p.2| / max p.1 p.2 := div_nonneg (abs_nonneg _) (le_of_lt hpos)
      linarith
  · simp only [List.mem_cons, List.not_mem_nil, or_false] at h
    rcases h with rfl | rfl <;> split_ifs <;> norm_num

set_option maxHeartbeats 1000000 in
lemma base_weight_bounds (p : String × String) :
    0 < (mood_weights p).getD (3/10) ∧ (mood_weights p).getD (3/10) ≤ 8/10 := by
  unfold mood_weights
  split_ifs <;> simp only [Option.getD_some, Option.getD_none] <;> norm_num

lemma feature_similarity_le_one (s1 s2 : Row) : calculate_feature_similarity s1 s2 ≤ 1 :=
  listMean_le_one (fun _ hx => mem_similarities_le_one hx)

lemma transition_weight_le (s1 s2 : Row) : calculate_transition_weight s1 s2 ≤ 8/10 := by
  unfold calculate_transition_weight
  obtain ⟨hpos, hle⟩ := base_weight_bounds (s1.mood, s2.mood)
  calc (mood_weights (s1.mood, s2.mood)).getD (3/10) * calculate_feature_similarity s1 s2
      ≤ (mood_weights (s1.mood, s2.mood)).getD (3/10) * 1 :=
        mul_le_mul_of_nonneg_left (feature_similarity_le_one s1 s2) (le_of_lt hpos)
  _ = (mood_weights (s1.mood, s2.mood)).getD (3/10) := mul_one _
  _ ≤ 8/10 := hle

theorem edge_weights_positive_and_bounded (dataset : List Row)
    (e : String × String × ℚ) (he : e ∈ (build_transition_graph dataset).edges) :
    0 < e.2.2 ∧ e.2.2 ≤ 8/10 := by
  unfold build_transition_graph at he
  simp only [List.mem_flatMap, List.mem_filterMap] at he
  obtain ⟨n1, hn1, n2, hn2, hmatch⟩ := he
  cases h1 : n1.songs with
  | nil => rw [h1] at hmatch; simp at hmatch
  | cons s1 t1 =>
    cases h2 : n2.songs with
    | nil => rw [h1, h2] at hmatch; simp at hmatch
    | cons s2 t2 =>
      rw [h1, h2] at hmatch
      simp only at hmatch
      split_ifs at hmatch with hw
      · cases hmatch
        exact ⟨hw, transition_weight_le s1 s2⟩

end MeloMuse

namespace MeloMuse

lemma wnodes : (build_transition_graph wrows).nodes = [wnode1, wnode2] := by decide

lemma wsim11 : calculate_feature_similarity wrow1 wrow1 = 1 := by
  norm_num [calculate_feature_similarity, similarities, numeric_similarities,
    feature_sim_term, numeric_features, listMean, wrow1, List.filterMap_cons]

lemma wsim12 : calculate_feature_similarity wrow1 wrow2 = 1 := by
  norm_num [calculate_feature_similarity, similarities, numeric_similarities,
    feature_sim_term, numeric_features, listMean, wrow1, wrow2, List.filterMap_cons]

lemma wsim21 : calculate_feature_similarity wrow2 wrow1 = 1 := by
  norm_num [calculate_feature_similarity, similarities, numeric_similarities,
    feature_sim_term, numeric_features, listMean, wrow1, wrow2, List.filterMap_cons]

lemma wsim22 : calculate_feature_similarity wrow2 wrow2 = 1 := by
  norm_num [calculate_feature_similarity, similarities, numeric_similarities,
    feature_sim_term, numeric_features, listMean, wrow1, wrow2, List.filterMap_cons]

lemma wweight12 : calculate_transition_weight wrow1 wrow2 = 4/5 := by
  rw [calculate_transition_weight, wsim12]
  simp [mood_weights, wrow1, wrow2] <;> norm_num

lemma wweight11 : calculate_transition_weight wrow1 wrow1 = 3/10 := by
  rw [calculate_transition_weight, wsim11]
  simp [mood_weights, wrow1] <;> norm_num

lemma wweight21 : calculate_transition_weight wrow2 wrow1 = 3/5 := by
  rw [calculate_transition_weight, wsim21]
  simp [mood_weights, wrow1, wrow2] <;> norm_num

lemma wweight22 : calculate_transition_weight wrow2 wrow2 = 3/10 := by
  rw [calculate_transition_weight, wsim22]
  simp [mood_weights, wrow1, wrow2] <;> norm_num

lemma wedges : (build_transition_graph wrows).edges =
    [("sad_0", "sad_0", 3/10), ("sad_0", "happy_0", 4/5),
     ("happy_0", "sad_0", 3/5), ("happy_0", "happy_0", 3/10)] := by
  have h : (build_transition_graph wrows).edges =
      ((build_transition_graph wrows).nodes).flatMap (fun n1 =>
        ((build_transition_graph wrows).nodes).filterMap (fun n2 =>
          match n1.songs, n2.songs with
          | s1 :: _, s2 :: _ =>
            let weight := calculate_transition_weight s1 s2
            if 0 < weight then some (n1.id, n2.id, weight) else none
          | _, _ => none)) := rfl
  rw [h, wnodes]
  simp only [List.flatMap_cons, List.flatMap_nil, List.filterMap_cons, List.filterMap_nil,
    wnode1, wnode2]
  rw [wweight11, wweight12, wweight21, wweight22]
  norm_num

theorem edge_weights_positive_and_bounded_witness :
    (0 : ℚ) < 4/5 ∧ (4 : ℚ)/5 ≤ 8/10 :=
  edge_weights_positive_and_bounded wrows ("sad_0", "happy_0", 4/5)
    (by rw [wedges]; simp)

lemma feature_sim_term_comm (a b : ℚ) : feature_sim_term a b = feature_sim_term b a := by
  unfold feature_sim_term
  rw [max_comm, abs_sub_comm]

lemma similarities_symm (s1 s2 : Row) : similarities s1 s2 = similarities s2 s1 := by
  unfold similarities numeric_similarities numeric_features
  simp only [List.filterMap_cons, List.filterMap_nil]
  rw [feature_sim_term_comm s1.popularity, feature_sim_term_comm s1.duration_ms,
    feature_sim_term_comm s1.artist_popularity, feature_sim_term_comm s1.artist_followers]
  have hb1 : (s1.explicit = s2.explicit) = (s2.explicit = s1.explicit) :=
    propext ⟨Eq.symm, Eq.symm⟩
  have hb2 : (s1.album_type = s2.album_type) = (s2.album_type = s1.album_type) :=
    propext ⟨Eq.symm, Eq.symm⟩
  simp only [hb1, hb2]

theorem feature_similarity_symmetric (s1 s2 : Row) :
    calculate_feature_similarity s1 s2 = calculate_feature_similarity s2 s1 := by
  unfold calculate_feature_similarity
  rw [similarities_symm]

lemma feature_sim_term_nonneg {a b x : ℚ} (ha : 0 ≤ a) (hb : 0 ≤ b)
    (h : feature_sim_term a b = some x) : 0 ≤ x := by
  unfold feature_sim_term at h
  split_ifs at h with hpos
  cases h
  have habs : |a - b| ≤ max a b := by
    rw [abs_sub_le_iff]
    constructor
    · calc a - b ≤ a := by linarith
      _ ≤ max a b := le_max_left a b
    · calc b - a ≤ b := by linarith
      _ ≤ max a b := le_max_right a b
  have : |a - b| / max a b ≤ 1 := (div_le_one hpos).mpr habs
  linarith

lemma mem_similarities_nonneg {s1 s2 : Row} {x : ℚ}
    (h1 : 0 ≤ s1.popularity) (h2 : 0 ≤ s1.duration_ms)
    (h3 : 0 ≤ s1.artist_popularity) (h4 : 0 ≤ s1.artist_followers)
    (h5 : 0 ≤ s2.popularity) (h6 : 0 ≤ s2.duration_ms)
    (h7 : 0 ≤ s2.artist_popularity) (h8 : 0 ≤ s2.artist_followers)
    (hx : x ∈ similarities s1 s2) : 0 ≤ x := by
  unfold similarities at hx
  rcases List.mem_append.mp hx with h | h
  · unfold numeric_similarities at h
    rcases List.mem_filterMap.mp h with ⟨p, hpmem, hp⟩
    unfold numeric_features at hpmem
    simp only [List.mem_cons, List.not_mem_nil, or_false] at hpmem
    rcases hpmem with rfl | rfl | rfl | rfl
    · exact feature_sim_term_nonneg h1 h5 hp
    · exact feature_sim_term_nonneg h2 h6 hp
    · exact feature_sim_term_nonneg h3 h7 hp
    · exact feature_sim_term_nonneg h4 h8 hp
  · simp only [List.mem_cons, List.not_mem_nil, or_false] at h
    rcases h with rfl | rfl <;> split_ifs <;> norm_num

theorem feature_similarity_total_and_bounded (s1 s2 : Row)
    (h1 : 0 ≤ s1.popularity) (h2 : 0 ≤ s1.duration_ms)
    (h3 : 0 ≤ s1.artist_popularity) (h4 : 0 ≤ s1.artist_followers)
    (h5 : 0 ≤ s2.popularity) (h6 : 0 ≤ s2.duration_ms)
    (h7 : 0 ≤ s2.artist_popularity) (h8 : 0 ≤ s2.artist_followers) :
    (similarities s1 s2).length = (numeric_similarities s1 s2).length + 2 ∧
    2 ≤ (similarities s1 s2).length ∧
    0 ≤ calculate_feature_similarity s1 s2 ∧ calculate_feature_similarity s1 s2 ≤ 1 := by
  refine ⟨?_, ?_, ?_, feature_similarity_le_one s1 s2⟩
  · unfold similarities
    simp
  · unfold similarities
    simp
  · exact listMean_nonneg (fun x hx =>
      mem_similarities_nonneg h1 h2 h3 h4 h5 h6 h7 h8 hx)

theorem feature_similarity_total_and_bounded_witness :
    (similarities wrow1 wrow2).length = (numeric_similarities wrow1 wrow2).length + 2 ∧
    2 ≤ (similarities wrow1 wrow2).length ∧
    0 ≤ calculate_feature_similarity wrow1 wrow2 ∧
    calculate_feature_similarity wrow1 wrow2 ≤ 1 :=
  feature_similarity_total_and_bounded wrow1 wrow2
    (by norm_num [wrow1]) (by norm_num [wrow1]) (by norm_num [wrow1]) (by norm_num [wrow1])
    (by norm_num [wrow2, wrow1]) (by norm_num [wrow2, wrow1])
    (by norm_num [wrow2, wrow1]) (by norm_num [wrow2, wrow1])

lemma groupKeys_nodes_length (dataset : List Row) :
    (build_transition_graph dataset).nodes.length = (groupKeys dataset).length := by
  unfold build_transition_graph
  simp

lemma node_count_le (dataset : List Row) (h5 : ∀ r ∈ dataset, r.cluster < 5) :
    (build_transition_graph dataset).nodes.length ≤
      5 * (dataset.map Row.mood).dedup.length := by
  rw [groupKeys_nodes_length]
  set K := groupKeys dataset with hK
  set M := (dataset.map Row.mood).dedup with hM
  have hKnodup : K.Nodup := List.nodup_dedup _
  have hMnodup : M.Nodup := List.nodup_dedup _
  have hsub : K.toFinset ⊆ M.toFinset ×ˢ Finset.range 5 := by
    intro k hk
    rw [List.mem_toFinset, hK, groupKeys, List.mem_dedup, List.mem_map] at hk
    obtain ⟨r, hr, hrk⟩ := hk
    rw [Finset.mem_product]
    constructor
    · rw [List.mem_toFinset, hM, List.mem_dedup, List.mem_map]
      refine ⟨r, hr, ?_⟩
      rw [← hrk]
      rfl
    · rw [Finset.mem_range, ← hrk]
      exact h5 r hr
  calc K.length = K.toFinset.card := (List.toFinset_card_of_nodup hKnodup).symm
  _ ≤ (M.toFinset ×ˢ Finset.range 5).card := Finset.card_le_card hsub
  _ = M.toFinset.card * 5 := by rw [Finset.card_product, Finset.card_range]
  _ = M.length * 5 := by rw [List.toFinset_card_of_nodup hMnodup]
  _ = 5 * M.length := Nat.mul_comm _ _

lemma row_in_unique_node (dataset : List Row) (r : Row) (hr : r ∈ dataset) :
    ((build_transition_graph dataset).nodes.filter
      (fun n => decide (r ∈ n.songs))).length = 1 := by
  have hnodes : (build_transition_graph dataset).nodes =
      (groupKeys dataset).map (mkNode dataset) := rfl
  rw [hnodes, ← List.countP_eq_length_filter, List.countP_map]
  have hcong : List.countP ((fun n => decide (r ∈ n.songs)) ∘ mkNode dataset)
      (groupKeys dataset) =
      List.countP (fun k => decide (k = rowKey r)) (groupKeys dataset) := by
    apply List.countP_congr
    intro k hk
    simp only [Function.comp_apply, mkNode, decide_eq_true_eq]
    rw [List.mem_filter]
    constructor
    · rintro ⟨_, hkey⟩
      rw [decide_eq_true_eq] at hkey
      rw [← hkey]
    · rintro rfl
      exact ⟨hr, by rw [decide_eq_true_eq]⟩
  rw [hcong]
  have hmem : rowKey r ∈ groupKeys dataset := by
    rw [groupKeys, List.mem_dedup, List.mem_map]
    exact ⟨r, hr, rfl⟩
  have h1 := List.count_eq_one_of_mem (List.nodup_dedup (dataset.map rowKey)) hmem
  exact h1

theorem training_node_count_and_partition (dataset : List Row)
    (h5 : ∀ r ∈ dataset, r.cluster < 5) :
    (build_transition_graph dataset).nodes.length ≤
      5 * (dataset.map Row.mood).dedup.length ∧
    ∀ r ∈ dataset, ((build_transition_graph dataset).nodes.filter
      (fun n => decide (r ∈ n.songs))).length = 1 :=
  ⟨node_count_le dataset h5, fun r hr => row_in_unique_node dataset r hr⟩

theorem training_node_count_and_partition_witness :
    (build_transition_graph wrows).nodes.length ≤
      5 * (wrows.map Row.mood).dedup.length ∧
    ∀ r ∈ wrows, ((build_transition_graph wrows).nodes.filter
      (fun n => decide (r ∈ n.songs))).length = 1 :=
  training_node_count_and_partition wrows (by decide)

lemma hasEdge_iff {g : Graph} {u w : String} :
    hasEdge g u w = true ↔ ∃ e ∈ g.edges, e.1 = u ∧ e.2.1 = w := by
  unfold hasEdge
  rw [List.any_eq_true]
  constructor
  · rintro ⟨e, he, hb⟩
    rw [Bool.and_eq_true, decide_eq_true_eq, decide_eq_true_eq] at hb
    exact ⟨e, he, hb⟩
  · rintro ⟨e, he, h1, h2⟩
    exact ⟨e, he, by rw [Bool.and_eq_true, decide_eq_true_eq, decide_eq_true_eq]
                     exact ⟨h1, h2⟩⟩

lemma mem_succs_iff {g : Graph} {u w : String} :
    w ∈ succs g u ↔ hasEdge g u w = true := by
  unfold succs
  rw [List.mem_filterMap, hasEdge_iff]
  constructor
  · rintro ⟨e, he, hif⟩
    split_ifs at hif with h1
    · cases hif
      exact ⟨e, he, h1, rfl⟩
  · rintro ⟨e, he, h1, h2⟩
    refine ⟨e, he, ?_⟩
    rw [if_pos h1, h2]

lemma isPath_ne_nil {g : Graph} {u v : String} {p : List String}
    (h : isPath g u v p = true) : p ≠ [] := by
  rintro rfl
  unfold isPath at h
  simp at h

lemma isPath_head {g : Graph} {u v : String} {p : List String}
    (h : isPath g u v p = true) : p.head? = some u := by
  unfold isPath at h
  rw [Bool.and_eq_true, Bool.and_eq_true] at h
  exact decide_eq_true_eq.mp h.1.1

lemma isPath_last {g : Graph} {u v : String} {p : List String}
    (h : isPath g u v p = true) : p.getLast? = some v := by
  unfold isPath at h
  rw [Bool.and_eq_true, Bool.and_eq_true] at h
  exact decide_eq_true_eq.mp h.1.2

lemma isPath_chain {g : Graph} {u v : String} {p : List String}
    (h : isPath g u v p = true) : chainB g p = true := by
  unfold isPath at h
  rw [Bool.and_eq_true, Bool.and_eq_true] at h
  exact h.2

lemma isPath_intro {g : Graph} {u v : String} {p : List String}
    (h1 : p.head? = some u) (h2 : p.getLast? = some v) (h3 : chainB g p = true) :
    isPath g u v p = true := by
  unfold isPath
  rw [Bool.and_eq_true, Bool.and_eq_true, decide_eq_true_eq, decide_eq_true_eq]
  exact ⟨⟨h1, h2⟩, h3⟩

lemma isPath_singleton {g : Graph} {u v a : String} :
    isPath g u v [a] = true ↔ a = u ∧ a = v := by
  unfold isPath chainB
  simp

lemma isPath_cons_cons {g : Graph} {u v a b : String} {rest : List String} :
    isPath g u v (a :: b :: rest) = true ↔
      a = u ∧ hasEdge g a b = true ∧ isPath g b v (b :: rest) = true := by
  constructor
  · intro h
    have hh := isPath_head h
    simp only [List.head?_cons, Option.some.injEq] at hh
    have hl := isPath_last h
    have hc := isPath_chain h
    unfold chainB at hc
    rw [Bool.and_eq_true] at hc
    refine ⟨hh, hc.1, isPath_intro rfl ?_ hc.2⟩
    rw [← hl]
    rw [List.getLast?_cons_cons]
  · rintro ⟨rfl, he, hp⟩
    refine isPath_intro rfl ?_ ?_
    · rw [List.getLast?_cons_cons]
      exact isPath_last hp
    · unfold chainB
      rw [Bool.and_eq_true]
      exact ⟨he, isPath_chain hp⟩

lemma pathsFrom_sound {g : Graph} : ∀ (fuel : Nat) (avoid : List String)
    (u v : String) (p : List String),
    p ∈ pathsFrom g fuel avoid u v → isPath g u v p = true := by
  intro fuel
  induction fuel with
  | zero =>
    intro avoid u v p hp
    unfold pathsFrom at hp
    split_ifs at hp with h
    · simp only [List.mem_cons, List.not_mem_nil, or_false] at hp
      subst hp
      rw [isPath_singleton]
      exact ⟨rfl, h⟩
    · simp at hp
  | succ fuel ih =>
    intro avoid u v p hp
    unfold pathsFrom at hp
    split_ifs at hp with h
    · simp only [List.mem_cons, List.not_mem_nil, or_false] at hp
      subst hp
      rw [isPath_singleton]
      exact ⟨rfl, h⟩
    · rw [List.mem_flatMap] at hp
      obtain ⟨w, hw, hpmem⟩ := hp
      rw [List.mem_map] at hpmem
      obtain ⟨q, hq, rfl⟩ := hpmem
      have hqpath := ih (u :: avoid) w v q hq
      rw [List.mem_filter] at hw
      have hedge : hasEdge g u w = true := mem_succs_iff.mp hw.1
      cases q with
      | nil => exact absurd rfl (isPath_ne_nil hqpath)
      | cons b rest =>
        have hb : b = w := by
          have hh := isPath_head hqpath
          simpa using hh
        subst hb
        rw [isPath_cons_cons]
        exact ⟨rfl, hedge, hqpath⟩

lemma chainB_append_right {g : Graph} : ∀ (l1 l2 : List String),
    chainB g (l1 ++ l2) = true → chainB g l2 = true := by
  intro l1
  induction l1 with
  | nil => intro l2 h; exact h
  | cons a l1 ih =>
    intro l2 h
    apply ih
    cases hl : l1 ++ l2 with
    | nil => rfl
    | cons c t =>
      rw [List.cons_append, hl] at h
      unfold chainB at h
      rw [Bool.and_eq_true] at h
      exact h.2

lemma getLast?_cons_append_cons (x y : String) (s t : List String) :
    (x :: (s ++ y :: t)).getLast? = (y :: t).getLast? := by
  rw [← List.cons_append, List.getLast?_append]
  have hsome : ((y :: t).getLast?).isSome := by
    rw [List.getLast?_isSome]
    simp
  obtain ⟨z, hz⟩ := Option.isSome_iff_exists.mp hsome
  rw [hz]
  rfl

lemma path_nodupify {g : Graph} : ∀ (n : Nat) (p : List String) (u v : String),
    p.length ≤ n → isPath g u v p = true →
    ∃ q, isPath g u v q = true ∧ q.Nodup ∧ ∀ x ∈ q, x ∈ p := by
  intro n
  induction n with
  | zero =>
    intro p u v hlen hp
    have hne := isPath_ne_nil hp
    rw [Nat.le_zero, List.length_eq_zero] at hlen
    exact absurd hlen hne
  | succ n ih =>
    intro p u v hlen hp
    cases p with
    | nil => exact absurd rfl (isPath_ne_nil hp)
    | cons a tail =>
      have ha : a = u := by
        have hh := isPath_head hp
        simpa using hh
      subst ha
      cases tail with
      | nil => exact ⟨[a], hp, List.nodup_singleton a, by simp⟩
      | cons b rest =>
        rw [isPath_cons_cons] at hp
        obtain ⟨-, hedge, htail⟩ := hp
        by_cases hmem : a ∈ b :: rest
        · obtain ⟨s, t, hst⟩ := List.append_of_mem hmem
          have hlast : (a :: t).getLast? = some v := by
            have hl := isPath_last htail
            rw [hst] at hl
            rw [List.getLast?_append] at hl
            have hsome : ((a :: t).getLast?).isSome := by
              rw [List.getLast?_isSome]
              simp
            obtain ⟨z, hz⟩ := Option.isSome_iff_exists.mp hsome
            rw [hz] at hl ⊢
            exact hl
          have hchain : chainB g (a :: t) = true := by
            have hc : chainB g ((a :: s) ++ (a :: t)) = true := by
              rw [List.cons_append, ← hst]
              unfold chainB
              rw [Bool.and_eq_true]
              exact ⟨hedge, isPath_chain htail⟩
            exact chainB_append_right (a :: s) (a :: t) hc
          have hp' : isPath g a v (a :: t) = true := isPath_intro rfl hlast hchain
          have hlen' : (a :: t).length ≤ n := by
            have h1 : (b :: rest).length ≤ n := by simpa using hlen
            have h2 : rest.length + 1 = s.length + (t.length + 1) := by
              have h3 := congrArg List.length hst
              simpa [List.length_append] using h3
            simp only [List.length_cons] at h1 ⊢
            omega
          obtain ⟨q, hq, hnodup, hsub⟩ := ih (a :: t) a v hlen' hp'
          refine ⟨q, hq, hnodup, fun x hx => ?_⟩
          have hxat := hsub x hx
          rcases List.mem_cons.mp hxat with rfl | hx'
          · exact List.mem_cons_self _ _
          · apply List.mem_cons_of_mem
            rw [hst]
            exact List.mem_append.mpr (Or.inr (List.mem_cons_of_mem _ hx'))
        · obtain ⟨q, hq, hnodup, hsub⟩ := ih (b :: rest) b v (by simpa using hlen) htail
          cases q with
          | nil => exact absurd rfl (isPath_ne_nil hq)
          | cons c q2 =>
            have hc : c = b := by
              have hh := isPath_head hq
              simpa using hh
            rw [hc] at hq hsub hnodup
            refine ⟨a :: b :: q2, ?_, ?_, ?_⟩
            · rw [isPath_cons_cons]
              exact ⟨rfl, hedge, hq⟩
            · rw [List.nodup_cons]
              exact ⟨fun hc => hmem (hsub a hc), hnodup⟩
            · intro x hx
              rcases List.mem_cons.mp hx with rfl | hx'
              · simp
              · exact List.mem_cons_of_mem _ (hsub x hx')

lemma pathsFrom_complete {g : Graph} : ∀ (fuel : Nat) (avoid : List String)
    (u v : String) (p : List String),
    isPath g u v p = true → p.Nodup →
    (∀ x ∈ p, x ∉ avoid) → (∀ x ∈ p, x ∈ nodeIds g) →
    ((nodeIds g).toFinset \ avoid.toFinset).card ≤ fuel →
    pathsFrom g fuel avoid u v ≠ [] := by
  intro fuel
  induction fuel with
  | zero =>
    intro avoid u v p hp hnd havoid hids hcard
    have hu : u ∈ p := by
      cases p with
      | nil => exact absurd rfl (isPath_ne_nil hp)
      | cons a t =>
        have hh := isPath_head hp
        simp only [List.head?_cons, Option.some.injEq] at hh
        rw [← hh]
        simp
    have humem : u ∈ (nodeIds g).toFinset \ avoid.toFinset :=
      Finset.mem_sdiff.mpr ⟨List.mem_toFinset.mpr (hids u hu),
        fun hc => havoid u hu (List.mem_toFinset.mp hc)⟩
    have hpos := Finset.card_pos.mpr ⟨u, humem⟩
    omega
  | succ fuel ih =>
    intro avoid u v p hp hnd havoid hids hcard
    by_cases huv : u = v
    · subst huv
      unfold pathsFrom
      rw [if_pos rfl]
      simp
    · cases p with
      | nil => exact absurd rfl (isPath_ne_nil hp)
      | cons a tail =>
        have ha : a = u := by
          have hh := isPath_head hp
          simpa using hh
        subst ha
        cases tail with
        | nil =>
          rw [isPath_singleton] at hp
          exact absurd (hp.1 ▸ hp.2) huv
        | cons b rest =>
          rw [isPath_cons_cons] at hp
          obtain ⟨-, hedge, htail⟩ := hp
          have hbavoid : ∀ x ∈ b :: rest, x ∉ a :: avoid := by
            intro x hx hxa
            rcases List.mem_cons.mp hxa with rfl | hxa'
            · rw [List.nodup_cons] at hnd
              exact hnd.1 hx
            · exact havoid x (List.mem_cons_of_mem _ hx) hxa'
          have hcard2 : ((nodeIds g).toFinset \ (a :: avoid).toFinset).card ≤ fuel := by
            rw [List.toFinset_cons, Finset.sdiff_insert]
            have hamem : a ∈ (nodeIds g).toFinset \ avoid.toFinset :=
              Finset.mem_sdiff.mpr ⟨List.mem_toFinset.mpr (hids a (by simp)),
                fun hc => havoid a (by simp) (List.mem_toFinset.mp hc)⟩
            rw [Finset.card_erase_of_mem hamem]
            have hpos := Finset.card_pos.mpr ⟨a, hamem⟩
            omega
          have hne := ih (a :: avoid) b v (b :: rest) htail
            (List.nodup_cons.mp hnd).2 hbavoid
            (fun x hx => hids x (List.mem_cons_of_mem _ hx)) hcard2
          obtain ⟨q, hq⟩ := List.exists_mem_of_ne_nil _ hne
          unfold pathsFrom
          rw [if_neg huv]
          apply List.ne_nil_of_mem (a := a :: q)
          rw [List.mem_flatMap]
          refine ⟨b, ?_, ?_⟩
          · rw [List.mem_filter]
            refine ⟨mem_succs_iff.mpr hedge, ?_⟩
            rw [decide_eq_true_eq]
            intro hb
            exact hbavoid b (by simp) (List.mem_cons_of_mem _ hb)
          · rw [List.mem_map]
            exact ⟨q, hq, rfl⟩

lemma foldl_min_mem (g : Graph) : ∀ (l : List (List String)) (a : List String),
    l.foldl (fun best q => if pathWeight g q < pathWeight g best then q else best) a ∈
      a :: l := by
  intro l
  induction l with
  | nil => intro a; simp
  | cons b l ih =>
    intro a
    simp only [List.foldl_cons]
    have h := ih (if pathWeight g b < pathWeight g a then b else a)
    rcases List.mem_cons.mp h with h1 | h1
    · rw [h1]
      split_ifs
      · exact List.mem_cons_of_mem _ (List.mem_cons_self _ _)
      · exact List.mem_cons_self _ _
    · exact List.mem_cons_of_mem _ (List.mem_cons_of_mem _ h1)

lemma minByWeight_mem {g : Graph} {l : List (List String)} {p : List String}
    (h : minByWeight g l = some p) : p ∈ l := by
  cases l with
  | nil => simp [minByWeight] at h
  | cons q l =>
    unfold minByWeight at h
    rw [Option.some.injEq] at h
    rw [← h]
    exact foldl_min_mem g l q

lemma minByWeight_ne_none {g : Graph} {l : List (List String)} (h : l ≠ []) :
    ∃ p, minByWeight g l = some p := by
  cases l with
  | nil => exact absurd rfl h
  | cons q l => exact ⟨_, rfl⟩

lemma shortest_path_sound {g : Graph} {s t : String} {p : List String}
    (h : shortest_path g s t = some p) : isPath g s t p = true :=
  pathsFrom_sound g.nodes.length [] s t p (minByWeight_mem h)

lemma isPath_subset_nodeIds {g : Graph}
    (hwf : ∀ e ∈ g.edges, e.1 ∈ nodeIds g ∧ e.2.1 ∈ nodeIds g) :
    ∀ (p : List String) (u v : String), u ∈ nodeIds g → isPath g u v p = true →
    ∀ x ∈ p, x ∈ nodeIds g := by
  intro p
  induction p with
  | nil => intro u v _ _ x hx; simp at hx
  | cons a tail ih =>
    intro u v hu hp x hx
    have ha : a = u := by
      have hh := isPath_head hp
      simpa using hh
    subst ha
    rcases List.mem_cons.mp hx with rfl | hx2
    · exact hu
    · cases tail with
      | nil => simp at hx2
      | cons b rest =>
        rw [isPath_cons_cons] at hp
        obtain ⟨-, hedge, htail⟩ := hp
        have hb : b ∈ nodeIds g := by
          obtain ⟨e, he, h1, h2⟩ := hasEdge_iff.mp hedge
          rw [← h2]
          exact (hwf e he).2
        exact ih b v hb htail x hx2

lemma shortest_path_some {g : Graph} {s t : String} {p : List String}
    (hwf : ∀ e ∈ g.edges, e.1 ∈ nodeIds g ∧ e.2.1 ∈ nodeIds g)
    (hs : s ∈ nodeIds g) (hp : isPath g s t p = true) :
    ∃ q, shortest_path g s t = some q := by
  have hsub := isPath_subset_nodeIds hwf p s t hs hp
  obtain ⟨q0, hq0, hnd, hqsub⟩ := path_nodupify p.length p s t le_rfl hp
  have hids : ∀ x ∈ q0, x ∈ nodeIds g := fun x hx => hsub x (hqsub x hx)
  have hcard : ((nodeIds g).toFinset \ ([] : List String).toFinset).card ≤
      g.nodes.length := by
    rw [List.toFinset_nil, Finset.sdiff_empty]
    calc (nodeIds g).toFinset.card ≤ (nodeIds g).length := List.toFinset_card_le _
    _ = g.nodes.length := by
      unfold nodeIds
      rw [List.length_map]
  have hne := pathsFrom_complete g.nodes.length [] s t q0 hq0 hnd
    (by simp) hids hcard
  exact minByWeight_ne_none hne

lemma build_graph_wf (dataset : List Row) :
    ∀ e ∈ (build_transition_graph dataset).edges,
      e.1 ∈ nodeIds (build_transition_graph dataset) ∧
      e.2.1 ∈ nodeIds (build_transition_graph dataset) := by
  intro e he
  have hE : (build_transition_graph dataset).edges =
      ((build_transition_graph dataset).nodes).flatMap (fun n1 =>
        ((build_transition_graph dataset).nodes).filterMap (fun n2 =>
          match n1.songs, n2.songs with
          | s1 :: _, s2 :: _ =>
            let weight := calculate_transition_weight s1 s2
            if 0 < weight then some (n1.id, n2.id, weight) else none
          | _, _ => none)) := rfl
  rw [hE, List.mem_flatMap] at he
  obtain ⟨n1, hn1, he2⟩ := he
  rw [List.mem_filterMap] at he2
  obtain ⟨n2, hn2, hmatch⟩ := he2
  cases h1 : n1.songs with
  | nil => rw [h1] at hmatch; simp at hmatch
  | cons s1 t1 =>
    cases h2 : n2.songs with
    | nil => rw [h1, h2] at hmatch; simp at hmatch
    | cons s2 t2 =>
      rw [h1, h2] at hmatch
      simp only at hmatch
      split_ifs at hmatch
      cases hmatch
      constructor
      · exact List.mem_map.mpr ⟨n1, hn1, rfl⟩
      · exact List.mem_map.mpr ⟨n2, hn2, rfl⟩

lemma pick_best_step_none {g : Graph} {t : ℚ} {best : Option (List String × ℚ)}
    {pr : String × String} (h : pick_best_step g t best pr = none) :
    best = none ∧ shortest_path g pr.1 pr.2 = none := by
  unfold pick_best_step at h
  cases hsp : shortest_path g pr.1 pr.2 with
  | none =>
    rw [hsp] at h
    exact ⟨h, rfl⟩
  | some path =>
    rw [hsp] at h
    cases best with
    | none => simp at h
    | some b =>
      simp only at h
      split_ifs at h <;> simp at h

lemma pick_best_foldl_none {g : Graph} {t : ℚ} :
    ∀ (pairs : List (String × String)) (acc : Option (List String × ℚ)),
    pairs.foldl (pick_best_step g t) acc = none →
    acc = none ∧ ∀ pr ∈ pairs, shortest_path g pr.1 pr.2 = none := by
  intro pairs
  induction pairs with
  | nil =>
    intro acc h
    exact ⟨h, by simp⟩
  | cons pr pairs ih =>
    intro acc h
    rw [List.foldl_cons] at h
    obtain ⟨hstep, hrest⟩ := ih (pick_best_step g t acc pr) h
    obtain ⟨hacc, hsp⟩ := pick_best_step_none hstep
    refine ⟨hacc, fun pr2 hpr2 => ?_⟩
    rcases List.mem_cons.mp hpr2 with rfl | hpr2
    · exact hsp
    · exact hrest pr2 hpr2

lemma pick_best_foldl_some {g : Graph} {t : ℚ} :
    ∀ (pairs : List (String × String)) (acc : Option (List String × ℚ))
      (bp : List String × ℚ),
    pairs.foldl (pick_best_step g t) acc = some bp →
    acc = some bp ∨ ∃ pr ∈ pairs, shortest_path g pr.1 pr.2 = some bp.1 := by
  intro pairs
  induction pairs with
  | nil =>
    intro acc bp h
    exact Or.inl h
  | cons pr pairs ih =>
    intro acc bp h
    rw [List.foldl_cons] at h
    rcases ih (pick_best_step g t acc pr) bp h with h1 | h1
    · unfold pick_best_step at h1
      cases hsp : shortest_path g pr.1 pr.2 with
      | none =>
        rw [hsp] at h1
        exact Or.inl h1
      | some path =>
        rw [hsp] at h1
        cases acc with
        | none =>
          simp only [Option.some.injEq] at h1
          refine Or.inr ⟨pr, List.mem_cons_self _ _, ?_⟩
          rw [hsp, ← h1]
        | some b =>
          simp only at h1
          split_ifs at h1
          · rw [Option.some.injEq] at h1
            refine Or.inr ⟨pr, List.mem_cons_self _ _, ?_⟩
            rw [hsp, ← h1]
          · exact Or.inl h1
    · obtain ⟨pr2, hpr2, hsp⟩ := h1
      exact Or.inr ⟨pr2, List.mem_cons_of_mem _ hpr2, hsp⟩

lemma mem_node_pairs {A B : List String} {pr : String × String} :
    pr ∈ node_pairs A B ↔ pr.1 ∈ A ∧ pr.2 ∈ B := by
  unfold node_pairs
  rw [List.mem_flatMap]
  constructor
  · rintro ⟨s, hs, hpr⟩
    rw [List.mem_map] at hpr
    obtain ⟨e, he, rfl⟩ := hpr
    exact ⟨hs, he⟩
  · rintro ⟨h1, h2⟩
    exact ⟨pr.1, h1, List.mem_map.mpr ⟨pr.2, h2, rfl⟩⟩

theorem generate_playlist_error_behavior (g : Graph) (rng : Nat → Nat)
    (start_emotion end_emotion : String) (duration_minutes : ℚ) :
    (((nodeIds g).filter (fun n => startswith n start_emotion) = [] ∨
      (nodeIds g).filter (fun n => startswith n end_emotion) = []) →
      generate_playlist g rng start_emotion end_emotion duration_minutes =
        (Except.error (GenError.noSuchMood start_emotion end_emotion), g)) ∧
    ((nodeIds g).filter (fun n => startswith n start_emotion) ≠ [] →
      (nodeIds g).filter (fun n => startswith n end_emotion) ≠ [] →
      (¬ ∃ s2 e2 p, s2 ∈ (nodeIds g).filter (fun n => startswith n start_emotion) ∧
        e2 ∈ (nodeIds g).filter (fun n => startswith n end_emotion) ∧
        isPath g s2 e2 p = true) →
      generate_playlist g rng start_emotion end_emotion duration_minutes =
        (Except.error (GenError.noPath start_emotion end_emotion), g)) ∧
    (generate_playlist g rng start_emotion end_emotion duration_minutes).2 = g := by
  refine ⟨?_, ?_, ?_⟩
  · intro h
    have hcond : (((nodeIds g).filter (fun n => startswith n start_emotion)).isEmpty ||
        ((nodeIds g).filter (fun n => startswith n end_emotion)).isEmpty) = true := by
      rcases h with h | h <;> rw [Bool.or_eq_true] <;>
        [left; right] <;> rw [List.isEmpty_iff] <;> exact h
    unfold generate_playlist
    simp [hcond]
  · intro hs he hnopath
    have hcond : (((nodeIds g).filter (fun n => startswith n start_emotion)).isEmpty ||
        ((nodeIds g).filter (fun n => startswith n end_emotion)).isEmpty) = false := by
      rw [Bool.or_eq_false_iff]
      constructor <;> rw [Bool.eq_false_iff] <;> intro hc <;>
        rw [List.isEmpty_iff] at hc
      · exact hs hc
      · exact he hc
    have hallnone : ∀ pr ∈ node_pairs
        ((nodeIds g).filter (fun n => startswith n start_emotion))
        ((nodeIds g).filter (fun n => startswith n end_emotion)),
        shortest_path g pr.1 pr.2 = none := by
      intro pr hpr
      obtain ⟨h1, h2⟩ := mem_node_pairs.mp hpr
      cases hsp : shortest_path g pr.1 pr.2 with
      | none => rfl
      | some p =>
        exact absurd ⟨pr.1, pr.2, p, h1, h2, shortest_path_sound hsp⟩ hnopath
    have hpick : pick_best_path g (duration_minutes * 60 * 1000)
        (node_pairs ((nodeIds g).filter (fun n => startswith n start_emotion))
          ((nodeIds g).filter (fun n => startswith n end_emotion))) = none := by
      unfold pick_best_path
      by_contra hne
      rw [← Ne, Option.ne_none_iff_exists'] at hne
      obtain ⟨bp, hbp⟩ := hne
      rcases pick_best_foldl_some _ none bp hbp with h1 | h1
      · simp at h1
      · obtain ⟨pr, hpr, hsp⟩ := h1
        rw [hallnone pr hpr] at hsp
        simp at hsp
    unfold generate_playlist
    simp [hcond, hpick]
  · unfold generate_playlist
    cases hcond : (((nodeIds g).filter (fun n => startswith n start_emotion)).isEmpty ||
        ((nodeIds g).filter (fun n => startswith n end_emotion)).isEmpty) with
    | true => simp [hcond]
    | false =>
      cases hpick : pick_best_path g (duration_minutes * 60 * 1000)
          (node_pairs ((nodeIds g).filter (fun n => startswith n start_emotion))
            ((nodeIds g).filter (fun n => startswith n end_emotion))) with
      | none => simp [hcond, hpick]
      | some bp => simp [hcond, hpick]

theorem generate_playlist_error_behavior_witness :
    generate_playlist wgraph (fun _ => 0) ("calm") ("happy") 30 =
      (Except.error (GenError.noSuchMood ("calm") ("happy")), wgraph) ∧
    generate_playlist wgraphNP (fun _ => 0) ("sad") ("happy") 30 =
      (Except.error (GenError.noPath ("sad") ("happy")), wgraphNP) := by
  constructor
  · exact (generate_playlist_error_behavior wgraph (fun _ => 0) ("calm") ("happy") 30).1
      (Or.inl (by decide))
  · apply (generate_playlist_error_behavior wgraphNP (fun _ => 0) ("sad") ("happy") 30).2.1
    · decide
    · decide
    · rintro ⟨s2, e2, p, hs2, he2, hp⟩
      have hf1 : (nodeIds wgraphNP).filter (fun n => startswith n ("sad")) = ["sad_0"] := by
        decide
      have hf2 : (nodeIds wgraphNP).filter (fun n => startswith n ("happy")) = ["happy_0"] := by
        decide
      rw [hf1] at hs2
      rw [hf2] at he2
      have hs3 : s2 = "sad_0" := by simpa using hs2
      have he3 : e2 = "happy_0" := by simpa using he2
      subst hs3
      subst he3
      cases p with
      | nil => exact isPath_ne_nil hp rfl
      | cons a tail =>
        cases tail with
        | nil =>
          rw [isPath_singleton] at hp
          obtain ⟨rfl, hbad⟩ := hp
          exact absurd hbad (by decide)
        | cons b rest =>
          rw [isPath_cons_cons] at hp
          obtain ⟨-, hedge, -⟩ := hp
          rw [show hasEdge wgraphNP a b = false from rfl] at hedge
          exact Bool.false_ne_true hedge

lemma built_node_songs_ne_nil {dataset : List Row} {n : GNode}
    (hn : n ∈ (build_transition_graph dataset).nodes) : n.songs ≠ [] := by
  have hnodes : (build_transition_graph dataset).nodes =
      (groupKeys dataset).map (mkNode dataset) := rfl
  rw [hnodes, List.mem_map] at hn
  obtain ⟨k, hk, rfl⟩ := hn
  rw [groupKeys, List.mem_dedup, List.mem_map] at hk
  obtain ⟨r, hr, hrk⟩ := hk
  have hmem : r ∈ (mkNode dataset k).songs := by
    unfold mkNode
    rw [List.mem_filter]
    exact ⟨hr, by rw [decide_eq_true_eq, hrk]⟩
  exact List.ne_nil_of_mem hmem

lemma built_node_songs_subset {dataset : List Row} {n : GNode}
    (hn : n ∈ (build_transition_graph dataset).nodes) : ∀ r ∈ n.songs, r ∈ dataset := by
  have hnodes : (build_transition_graph dataset).nodes =
      (groupKeys dataset).map (mkNode dataset) := rfl
  rw [hnodes, List.mem_map] at hn
  obtain ⟨k, hk, rfl⟩ := hn
  intro r hr
  unfold mkNode at hr
  exact (List.mem_filter.mp hr).1

lemma findNode_of_mem_nodeIds {g : Graph} {i : String} (h : i ∈ nodeIds g) :
    ∃ n, findNode g i = some n ∧ n ∈ g.nodes := by
  unfold nodeIds at h
  rw [List.mem_map] at h
  obtain ⟨n0, hn0, hid⟩ := h
  have hsome : (findNode g i).isSome := by
    unfold findNode
    rw [List.find?_isSome]
    exact ⟨n0, hn0, by rw [decide_eq_true_eq, hid]⟩
  obtain ⟨n, hn⟩ := Option.isSome_iff_exists.mp hsome
  exact ⟨n, hn, List.mem_of_find?_eq_some hn⟩

lemma walk_path_first {g : Graph} {rng : Nat → Nat} {i : String} {rest : List String}
    {n : GNode} {target : ℚ}
    (hfind : findNode g i = some n) (hne : n.songs ≠ [])
    (hpos : ∀ r ∈ n.songs, 0 < r.duration_ms) (htarget : target ≤ 0) :
    ∃ song ∈ n.songs, walk_path g rng target (i :: rest) 0 0 [] = [song] := by
  have hlen : 0 < n.songs.length := List.length_pos.mpr hne
  unfold walk_path
  rw [hfind]
  simp only
  rw [dif_neg hne]
  set song := n.songs.get ⟨rng 0 % n.songs.length, Nat.mod_lt _ hlen⟩ with hsong
  have hmem : song ∈ n.songs := List.get_mem _ _ _
  have hstop : target ≤ 0 + song.duration_ms := by
    have := hpos song hmem
    linarith
  rw [if_pos hstop]
  exact ⟨song, hmem, by simp⟩

theorem generate_playlist_zero_target (dataset : List Row) (rng : Nat → Nat)
    (start_emotion end_emotion : String)
    (hdur : ∀ r ∈ dataset, 0 < r.duration_ms)
    (hreach : ∃ s2 e2 p,
      s2 ∈ (nodeIds (build_transition_graph dataset)).filter
        (fun n => startswith n start_emotion) ∧
      e2 ∈ (nodeIds (build_transition_graph dataset)).filter
        (fun n => startswith n end_emotion) ∧
      isPath (build_transition_graph dataset) s2 e2 p = true) :
    ∃ song, generate_playlist (build_transition_graph dataset) rng
      start_emotion end_emotion 0 =
      (Except.ok [song], build_transition_graph dataset) := by
  obtain ⟨s2, e2, p, hs2, he2, hp⟩ := hreach
  have hwf := build_graph_wf dataset
  have hsN : s2 ∈ nodeIds (build_transition_graph dataset) := (List.mem_filter.mp hs2).1
  obtain ⟨q, hq⟩ := shortest_path_some hwf hsN hp
  have hsne := List.ne_nil_of_mem hs2
  have hene := List.ne_nil_of_mem he2
  have hcond : (((nodeIds (build_transition_graph dataset)).filter
        (fun n => startswith n start_emotion)).isEmpty ||
      ((nodeIds (build_transition_graph dataset)).filter
        (fun n => startswith n end_emotion)).isEmpty) = false := by
    rw [Bool.or_eq_false_iff]
    constructor <;> rw [Bool.eq_false_iff] <;> intro hc <;> rw [List.isEmpty_iff] at hc
    · exact hsne hc
    · exact hene hc
  have hpairmem : (s2, e2) ∈ node_pairs
      ((nodeIds (build_transition_graph dataset)).filter
        (fun n => startswith n start_emotion))
      ((nodeIds (build_transition_graph dataset)).filter
        (fun n => startswith n end_emotion)) :=
    mem_node_pairs.mpr ⟨hs2, he2⟩
  have hpick : ∃ bp, pick_best_path (build_transition_graph dataset) ((0 : ℚ) * 60 * 1000)
      (node_pairs
        ((nodeIds (build_transition_graph dataset)).filter
          (fun n => startswith n start_emotion))
        ((nodeIds (build_transition_graph dataset)).filter
          (fun n => startswith n end_emotion))) = some bp := by
    cases hpb : pick_best_path (build_transition_graph dataset) ((0 : ℚ) * 60 * 1000)
        (node_pairs
          ((nodeIds (build_transition_graph dataset)).filter
            (fun n => startswith n start_emotion))
          ((nodeIds (build_transition_graph dataset)).filter
            (fun n => startswith n end_emotion))) with
    | none =>
      unfold pick_best_path at hpb
      obtain ⟨-, hall⟩ := pick_best_foldl_none _ none hpb
      rw [hall (s2, e2) hpairmem] at hq
      simp at hq
    | some bp => exact ⟨bp, rfl⟩
  obtain ⟨bp, hbp⟩ := hpick
  have hbp2 := hbp
  unfold pick_best_path at hbp2
  rcases pick_best_foldl_some _ none bp hbp2 with h1 | h1
  · simp at h1
  obtain ⟨pr, hpr, hsp⟩ := h1
  have hpath := shortest_path_sound hsp
  have hpr1 : pr.1 ∈ (nodeIds (build_transition_graph dataset)).filter
      (fun n => startswith n start_emotion) := (mem_node_pairs.mp hpr).1
  have hpr1N : pr.1 ∈ nodeIds (build_transition_graph dataset) :=
    (List.mem_filter.mp hpr1).1
  cases hbp1 : bp.1 with
  | nil =>
    rw [hbp1] at hpath
    exact absurd rfl (isPath_ne_nil hpath)
  | cons a rest =>
    rw [hbp1] at hpath
    have ha : a = pr.1 := by
      have hh := isPath_head hpath
      simpa using hh
    obtain ⟨n, hfind, hnmem⟩ := findNode_of_mem_nodeIds (ha ▸ hpr1N)
    have hne := built_node_songs_ne_nil hnmem
    have hpos : ∀ r ∈ n.songs, 0 < r.duration_ms := fun r hr =>
      hdur r (built_node_songs_subset hnmem r hr)
    have htarget : ((0 : ℚ) * 60 * 1000) ≤ 0 := by norm_num
    obtain ⟨song, hsongmem, hwalk⟩ :=
      @walk_path_first (build_transition_graph dataset) rng a rest n
        ((0 : ℚ) * 60 * 1000) hfind hne hpos htarget
    refine ⟨song, ?_⟩
    unfold generate_playlist
    simp only [hcond, Bool.false_eq_true, if_false]
    rw [hbp]
    show (Except.ok (walk_path (build_transition_graph dataset) rng ((0 : ℚ) * 60 * 1000)
      bp.1 0 0 []), build_transition_graph dataset) = _
    rw [hbp1, hwalk]

theorem generate_playlist_zero_target_witness :
    ∃ song, generate_playlist (build_transition_graph wrows) (fun _ => 0)
      ("sad") ("happy") 0 =
      (Except.ok [song], build_transition_graph wrows) :=
  generate_playlist_zero_target wrows (fun _ => 0) ("sad") ("happy")
    (by intro r hr
        fin_cases hr <;> norm_num [wrow1, wrow2])
    ⟨"sad_0", "happy_0", ["sad_0", "happy_0"], by decide, by decide, by
      rw [isPath_cons_cons]
      refine ⟨rfl, ?_, ?_⟩
      · unfold hasEdge
        rw [wedges]
        decide
      · rw [isPath_singleton]
        exact ⟨rfl, rfl⟩⟩

lemma hrl_go_ok {α : Type} {f : Nat → Except String α} {a : α} {rest : List Nat}
    {attempt : Nat} (h : f attempt = Except.ok a) :
    handle_rate_limit_go f (attempt :: rest) = (Except.ok a, [1]) := by
  unfold handle_rate_limit_go
  rw [h]

lemma hrl_go_raise {α : Type} {f : Nat → Except String α} {e : String} {rest : List Nat}
    {attempt : Nat} (h : f attempt = Except.error e)
    (hcond : (is_rate_limit e && decide (attempt < max_retries - 1)) = false) :
    handle_rate_limit_go f (attempt :: rest) = (Except.error e, [1]) := by
  conv_lhs => unfold handle_rate_limit_go
  rw [h]
  show (if (is_rate_limit e && decide (attempt < max_retries - 1)) = true then
      let r := handle_rate_limit_go f rest
      (r.1, 1 :: base_delay * 2 ^ attempt :: r.2)
    else (Except.error e, [1])) = _
  rw [if_neg (by rw [hcond]; exact Bool.false_ne_true)]

lemma hrl_go_retry {α : Type} {f : Nat → Except String α} {e : String} {rest : List Nat}
    {attempt : Nat} (h : f attempt = Except.error e)
    (hcond : (is_rate_limit e && decide (attempt < max_retries - 1)) = true) :
    handle_rate_limit_go f (attempt :: rest) =
      ((handle_rate_limit_go f rest).1,
        1 :: base_delay * 2 ^ attempt :: (handle_rate_limit_go f rest).2) := by
  conv_lhs => unfold handle_rate_limit_go
  rw [h]
  show (if (is_rate_limit e && decide (attempt < max_retries - 1)) = true then
      let r := handle_rate_limit_go f rest
      (r.1, 1 :: base_delay * 2 ^ attempt :: r.2)
    else (Except.error e, [1])) = _
  rw [if_pos hcond]

lemma range_three : List.range max_retries = [0, 1, 2] := rfl

theorem handle_rate_limit_spec {α : Type} (f : Nat → Except String α) :
    (∀ a, f 0 = Except.ok a → handle_rate_limit f = (Except.ok a, [1])) ∧
    (∀ e, f 0 = Except.error e → is_rate_limit e = false →
      handle_rate_limit f = (Except.error e, [1])) ∧
    (∀ e0 e1 a, f 0 = Except.error e0 → is_rate_limit e0 = true →
      f 1 = Except.error e1 → is_rate_limit e1 = true → f 2 = Except.ok a →
      handle_rate_limit f = (Except.ok a, [1, 2, 1, 4, 1])) ∧
    ((handle_rate_limit f).2 = [1] ∨ (handle_rate_limit f).2 = [1, 2, 1] ∨
      (handle_rate_limit f).2 = [1, 2, 1, 4, 1]) := by
  have hc0 : ∀ e, is_rate_limit e = true →
      (is_rate_limit e && decide ((0 : Nat) < max_retries - 1)) = true := by
    intro e he
    rw [he]
    rfl
  have hc1 : ∀ e, is_rate_limit e = true →
      (is_rate_limit e && decide ((1 : Nat) < max_retries - 1)) = true := by
    intro e he
    rw [he]
    rfl
  have hc2 : ∀ e, (is_rate_limit e && decide ((2 : Nat) < max_retries - 1)) = false := by
    intro e
    rw [Bool.and_eq_false_iff]
    right
    rfl
  refine ⟨?_, ?_, ?_, ?_⟩
  · intro a h
    unfold handle_rate_limit
    rw [range_three, hrl_go_ok h]
  · intro e h hrl
    unfold handle_rate_limit
    rw [range_three, hrl_go_raise h (by rw [hrl]; rfl)]
  · intro e0 e1 a h0 hrl0 h1 hrl1 h2
    unfold handle_rate_limit
    rw [range_three, hrl_go_retry h0 (hc0 e0 hrl0), hrl_go_retry h1 (hc1 e1 hrl1),
      hrl_go_ok h2]
    norm_num [base_delay]
  · unfold handle_rate_limit
    rw [range_three]
    cases h0 : f 0 with
    | ok a =>
      rw [hrl_go_ok h0]
      left
      rfl
    | error e0 =>
      cases hrl0 : is_rate_limit e0 with
      | false =>
        rw [hrl_go_raise h0 (by rw [hrl0]; rfl)]
        left
        rfl
      | true =>
        rw [hrl_go_retry h0 (hc0 e0 hrl0)]
        cases h1 : f 1 with
        | ok a =>
          rw [hrl_go_ok h1]
          right; left
          norm_num [base_delay]
        | error e1 =>
          cases hrl1 : is_rate_limit e1 with
          | false =>
            rw [hrl_go_raise h1 (by rw [hrl1]; rfl)]
            right; left
            norm_num [base_delay]
          | true =>
            rw [hrl_go_retry h1 (hc1 e1 hrl1)]
            cases h2 : f 2 with
            | ok a =>
              rw [hrl_go_ok h2]
              right; right
              norm_num [base_delay]
            | error e2 =>
              rw [hrl_go_raise h2 (hc2 e2)]
              right; right
              norm_num [base_delay]

theorem handle_rate_limit_spec_witness :
    handle_rate_limit call429twice = (Except.ok 7, [1, 2, 1, 4, 1]) :=
  (handle_rate_limit_spec call429twice).2.2.1 ("429 rate limited") ("429 rate limited") 7
    rfl (by decide) rfl (by decide) rfl

theorem handle_rate_limit_counterexample :
    handle_rate_limit call429 = (Except.error ("429 rate limited"), [1, 2, 1, 4, 1]) ∧
    (8 : ℚ) ∉ (handle_rate_limit call429).2 := by
  have h : handle_rate_limit call429 =
      (Except.error ("429 rate limited"), [1, 2, 1, 4, 1]) := by
    unfold handle_rate_limit
    rw [range_three]
    have h0 : call429 0 = Except.error ("429 rate limited") := rfl
    have hrl : is_rate_limit ("429 rate limited") = true := by decide
    rw [hrl_go_retry h0 (by rw [hrl]; rfl)]
    have h1 : call429 1 = Except.error ("429 rate limited") := rfl
    rw [hrl_go_retry h1 (by rw [hrl]; rfl)]
    have h2 : call429 2 = Except.error ("429 rate limited") := rfl
    rw [hrl_go_raise h2 (by rw [Bool.and_eq_false_iff]; right; rfl)]
    norm_num [base_delay]
  refine ⟨h, ?_⟩
  rw [h]
  norm_num

lemma gpt_go_le_50 {α : Type} (nextPage : Nat → Page α) :
    ∀ (fuel i : Nat) (p : Page α) (tracks l : List α),
    get_playlist_tracks_go nextPage fuel i p tracks = some l → l.length ≤ 50 := by
  intro fuel
  induction fuel with
  | zero =>
    intro i p tracks l h
    simp [get_playlist_tracks_go] at h
  | succ fuel ih =>
    intro i p tracks l h
    conv_lhs at h => unfold get_playlist_tracks_go
    split_ifs at h with hcond
    · exact ih (i + 1) (nextPage i) _ l h
    · rw [Option.some.injEq] at h
      rw [← h]
      exact List.length_take_le 50 tracks

theorem get_playlist_tracks_le_50 {α : Type} (first : Except String (Page α))
    (nextPage : Nat → Page α) (fuel : Nat) :
    (∀ l, get_playlist_tracks first nextPage fuel = some l → l.length ≤ 50) ∧
    (∀ i p tracks, 50 ≤ tracks.length →
      get_playlist_tracks_go nextPage (fuel + 1) i p tracks = some (tracks.take 50)) := by
  constructor
  · intro l h
    cases first with
    | error msg =>
      have hred : get_playlist_tracks (Except.error msg : Except String (Page α))
          nextPage fuel = some [] := rfl
      rw [hred, Option.some.injEq] at h
      rw [← h]
      simp
    | ok p =>
      have hred : get_playlist_tracks (Except.ok p) nextPage fuel =
          (match p.items with
           | none => some ([] : List α)
           | some tracks => get_playlist_tracks_go nextPage fuel 0 p tracks) := rfl
      rw [hred] at h
      cases hitems : p.items with
      | none =>
        rw [hitems, Option.some.injEq] at h
        rw [← h]
        simp
      | some tracks =>
        rw [hitems] at h
        exact gpt_go_le_50 nextPage fuel 0 p tracks l h
  · intro i p tracks h
    conv_lhs => unfold get_playlist_tracks_go
    rw [if_neg]
    rw [Bool.and_eq_true, not_and]
    intro
    rw [decide_eq_true_eq]
    omega

theorem get_playlist_tracks_le_50_witness :
    get_playlist_tracks (Except.ok wpage) wpages 10 = some [1, 2, 3, 4, 5] ∧
    ([1, 2, 3, 4, 5] : List Nat).length ≤ 50 :=
  ⟨by decide, (get_playlist_tracks_le_50 (Except.ok wpage) wpages 10).1
    [1, 2, 3, 4, 5] (by decide)⟩

lemma add_playlists_inv : ∀ (items : List Playlist) (acc : List Playlist × List String),
    (acc.1.map Playlist.id).Nodup → (∀ p ∈ acc.1, p.id ∈ acc.2) →
    ((add_playlists acc items).1.map Playlist.id).Nodup ∧
    ∀ p ∈ (add_playlists acc items).1, p.id ∈ (add_playlists acc items).2 := by
  intro items
  induction items with
  | nil =>
    intro acc h1 h2
    exact ⟨h1, h2⟩
  | cons p items ih =>
    intro acc h1 h2
    have hstep : add_playlists acc (p :: items) =
        add_playlists (if p.id ∈ acc.2 then acc
          else (acc.1 ++ [p], acc.2 ++ [p.id])) items := rfl
    rw [hstep]
    split_ifs with hmem
    · exact ih acc h1 h2
    · apply ih
      · rw [List.map_append, List.nodup_append]
        refine ⟨h1, List.nodup_singleton _, ?_⟩
        intro x hx hx2
        simp only [List.map_cons, List.map_nil, List.mem_cons, List.not_mem_nil,
          or_false] at hx2
        rw [List.mem_map] at hx
        obtain ⟨p2, hp2, hid⟩ := hx
        apply hmem
        rw [← hx2, ← hid]
        exact h2 p2 hp2
      · intro p2 hp2
        rcases List.mem_append.mp hp2 with hL | hR
        · exact List.mem_append.mpr (Or.inl (h2 p2 hL))
        · simp only [List.mem_cons, List.not_mem_nil, or_false] at hR
          rw [hR]
          exact List.mem_append.mpr (Or.inr (List.mem_cons_self _ _))

lemma process_fold_inv (resp : String → Except String (Option (List Playlist))) :
    ∀ (qs : List String) (acc : List Playlist × List String),
    (acc.1.map Playlist.id).Nodup → (∀ p ∈ acc.1, p.id ∈ acc.2) →
    ((qs.foldl (process_query resp) acc).1.map Playlist.id).Nodup := by
  intro qs
  induction qs with
  | nil =>
    intro acc h1 h2
    exact h1
  | cons q qs ih =>
    intro acc h1 h2
    rw [List.foldl_cons]
    unfold process_query
    cases resp q with
    | error msg => exact ih acc h1 h2
    | ok items =>
      cases items with
      | none => exact ih acc h1 h2
      | some items =>
        obtain ⟨h1a, h2a⟩ := add_playlists_inv items acc h1 h2
        exact ih _ h1a h2a

lemma process_fold_all_fail (resp : String → Except String (Option (List Playlist))) :
    ∀ (qs : List String) (acc : List Playlist × List String),
    (∀ q ∈ qs, ∃ msg, resp q = Except.error msg) →
    qs.foldl (process_query resp) acc = acc := by
  intro qs
  induction qs with
  | nil =>
    intro acc _
    rfl
  | cons q qs ih =>
    intro acc hall
    rw [List.foldl_cons]
    obtain ⟨msg, hmsg⟩ := hall q (List.mem_cons_self _ _)
    have hstep : process_query resp acc q = acc := by
      unfold process_query
      rw [hmsg]
    rw [hstep]
    exact ih acc (fun q2 hq2 => hall q2 (List.mem_cons_of_mem _ hq2))

/-- Claim C7: `search_playlists_by_mood` issues four query variants,
returns no duplicate playlist identifiers across those queries, returns at
most `limit` playlists, and never fails wholesale: per-query failures are
skipped, and when every query fails it returns the empty list rather than
raising. -/
theorem search_playlists_by_mood_spec
    (resp : String → Except String (Option (List Playlist)))
    (mood : String) (limit : Nat) :
    (mood_queries mood).length = 4 ∧
    ((search_playlists_by_mood resp mood limit).map Playlist.id).Nodup ∧
    (search_playlists_by_mood resp mood limit).length ≤ limit ∧
    ((∀ q ∈ mood_queries mood, ∃ msg, resp q = Except.error msg) →
      search_playlists_by_mood resp mood limit = []) := by
  refine ⟨rfl, ?_, ?_, ?_⟩
  · unfold search_playlists_by_mood
    rw [List.map_take]
    apply List.Sublist.nodup (List.take_sublist _ _)
    exact process_fold_inv resp (mood_queries mood) ([], []) (by simp) (by simp)
  · unfold search_playlists_by_mood
    exact List.length_take_le _ _
  · intro hall
    unfold search_playlists_by_mood
    rw [process_fold_all_fail resp (mood_queries mood) ([], []) hall]
    simp

/-- Witness for C7 with an oracle for which every query raises. -/
theorem search_playlists_by_mood_spec_witness :
    search_playlists_by_mood wrespFail ("chill") 5 = [] ∧
    ((search_playlists_by_mood wrespFail ("chill") 5).map Playlist.id).Nodup :=
  ⟨(search_playlists_by_mood_spec wrespFail ("chill") 5).2.2.2
      (fun q _ => ⟨"HTTP 500", rfl⟩),
    (search_playlists_by_mood_spec wrespFail ("chill") 5).2.1⟩

/-- Claim C8: `get_track_info` returns a structured record on success and a
null result when the track is missing; it never raises for not-found - in
fact it never raises at all, every raised API error being caught and turned
into a null result, which a fortiori means it raises only for unrecoverable
API errors. -/
theorem get_track_info_spec (call : Except String (Option SpotifyTrack)) :
    (∃ r, get_track_info call = Except.ok r) ∧
    (call = Except.ok none → get_track_info call = Except.ok none) ∧
    (∀ msg, call = Except.error msg → get_track_info call = Except.ok none) ∧
    (∀ t a rest, call = Except.ok (some t) → t.artists = a :: rest →
      get_track_info call = Except.ok (some (mk_track_info t a))) := by
  refine ⟨?_, ?_, ?_, ?_⟩
  · cases call with
    | error msg => exact ⟨none, rfl⟩
    | ok t =>
      cases t with
      | none => exact ⟨none, rfl⟩
      | some t =>
        have hred : get_track_info (Except.ok (some t)) =
            (match t.artists with
             | [] => Except.ok none
             | a :: _ => Except.ok (some (mk_track_info t a))) := rfl
        cases ht : t.artists with
        | nil => exact ⟨none, by rw [hred, ht]⟩
        | cons a rest => exact ⟨some (mk_track_info t a), by rw [hred, ht]⟩
  · rintro rfl
    rfl
  · rintro msg rfl
    rfl
  · rintro t a rest rfl hart
    have hred : get_track_info (Except.ok (some t)) =
        (match t.artists with
         | [] => Except.ok none
         | a :: _ => Except.ok (some (mk_track_info t a))) := rfl
    rw [hred, hart]

/-- Witness for C8 at a concrete successful track response. -/
theorem get_track_info_spec_witness :
    get_track_info (Except.ok (some wtrack)) =
      Except.ok (some (mk_track_info wtrack wartist)) :=
  (get_track_info_spec (Except.ok (some wtrack))).2.2.2 wtrack wartist [] rfl rfl

end MeloMuse
